import Mathlib

/-!
Shallow embedding of the `reload` package (src/reload.go): automatic restart of a
process when its own binary, or a file in an additional watched directory, changes.

The embedding models:
 - the fsnotify operation bitmask and the platform-dependent trigger classification
   (the `switch runtime.GOOS` in `Do`'s event loop);
 - the event loop body of `Do` as a function from one event to the list of observable
   effects it produces (log calls, sleeps, the restart action, directory callbacks);
 - `Exec` as a function producing the ordered trace of its steps (closing the watcher,
   the `syscall.Exec` attempt with its argv and environment, panics);
 - the start-up phase of `Do` (watcher creation, self-path resolution, validation of
   additional directories, starting the loop goroutine, adding directories to the
   watcher) as a function over an environment of OS-call results, returning the
   outcome together with the package-level state it leaves behind.
-/

namespace Reload

/-- fsnotify.Op bit for Create (fsnotify v1: `Create Op = 1 << iota`). -/
def Create : Nat := 1

/-- fsnotify.Op bit for Write. -/
def Write : Nat := 2

/-- fsnotify.Op bit for Remove. -/
def Remove : Nat := 4

/-- fsnotify.Op bit for Rename. -/
def Rename : Nat := 8

/-- fsnotify.Op bit for Chmod. -/
def Chmod : Nat := 16

/-- Go's `strings.HasPrefix(s, p)`: `p` is a leading substring of `s`, compared
character by character with no path-separator awareness. -/
def goHasPrefix (s p : String) : Bool :=
  List.isPrefixOf p.data s.data

/-- fsnotify.Event: a change notification carrying a path (`Name`) and an operation
bitmask (`Op`). -/
structure Event where
  name : String
  op : Nat
deriving DecidableEq, Repr

/-- Source type `dir`: an additional directory to watch, with its callback.
Callbacks are opaque to the embedding; each is identified by a number. -/
structure dir where
  path : String
  cb : Nat
deriving DecidableEq, Repr

/-- Source function `Dir(path, cb)`: builds an additional-directory descriptor. -/
def Dir (path : String) (cb : Nat) : dir := ⟨path, cb⟩

/-- The GOOS values of the BSD family branch of the `switch runtime.GOOS` in `Do`:
`case "darwin", "freebsd", "openbsd", "netbsd", "dragonfly"`. -/
def bsdGOOS : List String := ["darwin", "freebsd", "openbsd", "netbsd", "dragonfly"]

/-- The trigger classification of `Do`'s event loop: on the BSD family,
`event.Op&fsnotify.Create == fsnotify.Create`; on linux,
`event.Op&fsnotify.Write == fsnotify.Write`; on any other GOOS, the Create test
again (the `default:` branch). -/
def triggerOf (goos : String) (op : Nat) : Bool :=
  if bsdGOOS.contains goos then op &&& Create == Create
  else if goos = "linux" then op &&& Write == Write
  else op &&& Create == Create

/-- The warning `Do` logs in the `default:` branch of the GOOS switch. -/
def warnMsg (goos : String) : String :=
  "reload: untested GOOS " ++ goos ++ "; this package may not work correctly"

/-- An observable effect of processing one event in `Do`'s loop. -/
inductive Effect where
  | log (msg : String)
  | sleep (ms : Nat)
  | restart
  | callback (cb : Nat)
deriving DecidableEq, Repr

/-- The log effects the GOOS switch emits for one event: nothing on the BSD family
or linux, the untested-GOOS warning on every other platform (the `default:` branch
logs it on every event it classifies, unconditionally). -/
def warnEffects (goos : String) : List Effect :=
  if bsdGOOS.contains goos ∨ goos = "linux" then [] else [Effect.log (warnMsg goos)]

/-- The body of `Do`'s event loop for one received event, as the list of effects it
produces, in order. `binSelf` is the resolved self-binary path and `additional` the
descriptors with their paths already resolved to absolute form (the validation loop
overwrites `additional[i].path` with the absolute path before the loop starts).
A non-triggering event is dropped (`continue`) after the switch. When
`event.Name == binSelf`, the loop sleeps 100ms and calls `RestartExec`, which the
package's `init` sets to `Exec`; `Exec` never returns (the process image is replaced,
or the process panics), so no effect after it is emitted. Otherwise each descriptor
whose path is a string prefix of the event path (`strings.HasPrefix(event.Name, a.path)`)
contributes a 100ms sleep followed by its callback. -/
def processEvent (goos binSelf : String) (additional : List dir) (e : Event) : List Effect :=
  let warn := warnEffects goos
  if triggerOf goos e.op then
    if e.name = binSelf then
      warn ++ [Effect.sleep 100, Effect.restart]
    else
      warn ++ (additional.filter (fun a => goHasPrefix e.name a.path)).flatMap
        (fun a => [Effect.sleep 100, Effect.callback a.cb])
  else warn

/-- The event loop over a list of delivered events: effects are concatenated in
delivery order; once an event invokes the restart action the loop body never
resumes (the process image is replaced), so later events are not processed. -/
def processEvents (goos binSelf : String) (additional : List dir) : List Event → List Effect
  | [] => []
  | e :: rest =>
    let fx := processEvent goos binSelf additional e
    if Effect.restart ∈ fx then fx
    else fx ++ processEvents goos binSelf additional rest

/-- One step in the trace of `Exec`. `execAttempt` records the `syscall.Exec` call
with its path, argv and environment; `close` records the `closeWatcher()` call;
`panicMsg` records an abnormal termination with its message. -/
inductive ExecStep where
  | close
  | execAttempt (path : String) (argv : List String) (env : List String)
  | panicMsg (msg : String)
deriving DecidableEq, Repr

/-- Source function `Exec`, as the ordered trace of its steps. `binSelf` is the
package-level resolved path (`""` when never set, Go's zero value); `selfRes` is the
result `self()` would return if called; `closeSet` says whether the package-level
`closeWatcher` is non-nil; `args` is `os.Args` and `env` is `os.Environ()`;
`execErr` is the error `syscall.Exec` reports, `none` meaning the replacement
succeeds (and hence the call never returns). -/
def Exec (binSelf : String) (selfRes : Except String String) (closeSet : Bool)
    (args env : List String) (execErr : Option String) : List ExecStep :=
  match (if binSelf = "" then selfRes else Except.ok binSelf) with
  | Except.error m => [ExecStep.panicMsg ("cannot restart: cannot find self: " ++ m)]
  | Except.ok execName =>
    (if closeSet then [ExecStep.close] else []) ++
    ExecStep.execAttempt execName (execName :: args.tail) env ::
    (match execErr with
     | some m => [ExecStep.panicMsg ("cannot restart: " ++ m)]
     | none => [])

/-- Result of `os.Stat`: the one attribute `Do` inspects. -/
structure Stat where
  isDir : Bool
deriving DecidableEq, Repr

/-- Environment of OS-call results that `Do` consumes: the outcome of
`fsnotify.NewWatcher`, of `self()`, of `filepath.Abs`, of `os.Stat`, and of
`watcher.Add` per directory. -/
structure FS where
  newWatcher : Except String Unit
  selfRes : Except String String
  abs : String → Except String String
  stat : String → Except String Stat
  add : String → Except String Unit

/-- The errors `Do` can return, tagged by the step that produced them. -/
inductive DoErr where
  | watcherSetup (m : String)
  | resolution (m : String)
  | absErr (path m : String)
  | statErr (m : String)
  | notDir (path : String)
  | addErr (d m : String)
deriving DecidableEq, Repr

/-- The package-level and loop state `Do` leaves behind when it returns:
`binSelf` and whether `closeWatcher` was assigned (package vars), whether anything
called the watcher's close function, whether the event-loop goroutine was started
(`go func() { ... }()`), and which directories were added to the watcher. -/
structure DoState where
  binSelf : String := ""
  closeWatcherSet : Bool := false
  watcherClosed : Bool := false
  loopStarted : Bool := false
  watchedDirs : List String := []
deriving DecidableEq, Repr

/-- Outcome of `Do`: an initialisation error, or blocking forever on the `done`
channel (which nothing ever sends on). -/
inductive DoResult where
  | errored (e : DoErr)
  | blocked
deriving DecidableEq, Repr

/-- Model of `filepath.Dir` for slash-separated paths: everything before the last
separator (`"/"` when that is empty, `"."` when there is no separator). Cleaning of
`.`/`..` components is not modelled; no claim exercises it. -/
def filepathDir (p : String) : String :=
  let cs := p.data
  if cs.contains '/' then
    let pre := ((cs.reverse.dropWhile (fun c => c != '/')).drop 1).reverse
    if pre.isEmpty then "/" else String.mk pre
  else "."

/-- The validation loop of `Do` (`for i := range additional`): resolve each path with
`filepath.Abs`, `os.Stat` it, require a directory; on success the descriptor's path
is overwritten with the absolute path. Returns the resolved descriptors, or the
first error. -/
def validateAdditional (fs : FS) : List dir → Except DoErr (List dir)
  | [] => Except.ok []
  | d :: rest =>
    match fs.abs d.path with
    | Except.error m => Except.error (DoErr.absErr d.path m)
    | Except.ok p =>
      match fs.stat p with
      | Except.error m => Except.error (DoErr.statErr m)
      | Except.ok s =>
        if s.isDir = false then Except.error (DoErr.notDir d.path)
        else
          match validateAdditional fs rest with
          | Except.error e => Except.error e
          | Except.ok l => Except.ok (⟨p, d.cb⟩ :: l)

/-- The registration loop of `Do` (`for _, d := range dirs`): add each directory to
the watcher, returning on the first failure; on success `Do` logs its start-up
message and blocks forever on `done`. -/
def addDirsLoop (fs : FS) (st : DoState) : List String → DoResult × DoState
  | [] => (DoResult.blocked, st)
  | d :: rest =>
    match fs.add d with
    | Except.error m => (DoResult.errored (DoErr.addErr d m), st)
    | Except.ok _ => addDirsLoop fs { st with watchedDirs := st.watchedDirs ++ [d] } rest

/-- Source function `Do`, start-up phase: create the watcher (assigning the
package-level `closeWatcher` on success), resolve the self path into the
package-level `binSelf`, validate the additional directories, start the event-loop
goroutine, then add the self-binary's directory followed by the resolved additional
directories to the watcher. Nothing in `Do` ever calls the watcher's close
function. -/
def Do (fs : FS) (additional : List dir) : DoResult × DoState :=
  match fs.newWatcher with
  | Except.error m => (DoResult.errored (DoErr.watcherSetup m), {})
  | Except.ok _ =>
    let st1 : DoState := { closeWatcherSet := true }
    match fs.selfRes with
    | Except.error m => (DoResult.errored (DoErr.resolution m), st1)
    | Except.ok bin =>
      let st2 := { st1 with binSelf := bin }
      match validateAdditional fs additional with
      | Except.error e => (DoResult.errored e, st2)
      | Except.ok resolved =>
        let dirs := filepathDir bin :: resolved.map (fun d => d.path)
        let st3 := { st2 with loopStarted := true }
        addDirsLoop fs st3 dirs

/-- A descriptor the spec calls invalid: its path resolves, but `os.Stat` fails on
the resolved path or reports something that is not a directory. -/
def badDescriptor (fs : FS) (d : dir) : Prop :=
  ∃ p, fs.abs d.path = Except.ok p ∧
    ((∃ m, fs.stat p = Except.error m) ∨ (∃ s, fs.stat p = Except.ok s ∧ s.isDir = false))

/-- Whether an error is one of the two validation errors (stat failure, not a
directory). -/
def isValidationError : DoErr → Bool
  | DoErr.statErr _ => true
  | DoErr.notDir _ => true
  | _ => false

/-- Whether a step is a `syscall.Exec` attempt. -/
def isExecAttempt : ExecStep → Bool
  | ExecStep.execAttempt _ _ _ => true
  | _ => false

/-- Environment for exercising a watcher.Add failure: watcher creation, self
resolution, path resolution and stat all succeed, adding any directory fails. -/
def fsC2 : FS where
  newWatcher := Except.ok ()
  selfRes := Except.ok "/app/bin/server"
  abs := fun p => Except.ok p
  stat := fun _ => Except.ok ⟨true⟩
  add := fun _ => Except.error "permission denied"

/-- Environment for exercising a validation failure: stat fails on /app/missing,
everything else succeeds. -/
def fsC7 : FS where
  newWatcher := Except.ok ()
  selfRes := Except.ok "/app/bin/server"
  abs := fun p => Except.ok p
  stat := fun p =>
    if p = "/app/missing" then Except.error "no such file or directory"
    else Except.ok ⟨true⟩
  add := fun _ => Except.ok ()

/-- Every member of the GOOS-switch log effects is the untested-platform warning. -/
theorem warn_mem_log (goos : String) (x : Effect) (h : x ∈ warnEffects goos) :
    x = Effect.log (warnMsg goos) := by
  unfold warnEffects at h
  split at h
  · cases h
  · simpa using h

/-- The GOOS switch never emits a restart effect. -/
theorem restart_not_mem_warn (goos : String) : Effect.restart ∉ warnEffects goos := by
  intro h
  cases warn_mem_log goos _ h

/-- The GOOS switch never emits a callback effect. -/
theorem callback_not_mem_warn (goos : String) (c : Nat) :
    Effect.callback c ∉ warnEffects goos := by
  intro h
  cases warn_mem_log goos _ h

/-- The GOOS switch never emits a sleep effect. -/
theorem sleep_not_mem_warn (goos : String) (n : Nat) :
    Effect.sleep n ∉ warnEffects goos := by
  intro h
  cases warn_mem_log goos _ h

/-- The callback dispatch loop never emits a log effect. -/
theorem log_not_mem_cbs (m : String) (l : List dir) :
    Effect.log m ∉ l.flatMap (fun a => [Effect.sleep 100, Effect.callback a.cb]) := by
  intro h
  obtain ⟨a, _, hm⟩ := List.mem_flatMap.mp h
  simp at hm

/-- The callback dispatch loop never emits a restart effect. -/
theorem restart_not_mem_cbs (l : List dir) :
    Effect.restart ∉ l.flatMap (fun a => [Effect.sleep 100, Effect.callback a.cb]) := by
  intro h
  obtain ⟨a, _, hm⟩ := List.mem_flatMap.mp h
  simp at hm

/-- Each matched descriptor contributes its sleep-then-callback pair contiguously
to the dispatch loop's effects. -/
theorem pair_infix_cbs (l : List dir) (a : dir) (ha : a ∈ l) :
    [Effect.sleep 100, Effect.callback a.cb] <:+:
      l.flatMap (fun a => [Effect.sleep 100, Effect.callback a.cb]) := by
  induction l with
  | nil => cases ha
  | cons b t ih =>
    rcases List.mem_cons.mp ha with h | h
    · subst h
      exact ⟨[], t.flatMap (fun a => [Effect.sleep 100, Effect.callback a.cb]),
        by simp [List.flatMap_cons]⟩
    · obtain ⟨s, u, hsu⟩ := ih h
      exact ⟨[Effect.sleep 100, Effect.callback b.cb] ++ s, u,
        by simp [List.flatMap_cons, ← hsu]⟩

/-- Contiguous occurrence is preserved by prepending a list. -/
theorem infix_of_append {l m r : List Effect} (h : m <:+: r) : m <:+: l ++ r := by
  obtain ⟨s, t, hst⟩ := h
  exact ⟨l ++ s, t, by rw [← hst]; simp⟩

/-- C1: a change event whose path exactly equals the resolved self-binary path and
whose operation is the active platform's trigger kind invokes the restart action
exactly once, immediately after the 100 ms grace-period sleep; and the process
replacement execs the same binary with argv equal to the resolved path followed by
the original trailing arguments and with the original environment. -/
theorem c1_self_event_restarts (goos bs : String) (additional : List dir) (e : Event)
    (sr : Except String String) (args env : List String)
    (ht : triggerOf goos e.op = true) (hn : e.name = bs) (hb : bs ≠ "") :
    (processEvent goos bs additional e).count Effect.restart = 1
  ∧ [Effect.sleep 100, Effect.restart] <:+: processEvent goos bs additional e
  ∧ ExecStep.execAttempt bs (bs :: args.tail) env ∈ Exec bs sr true args env none := by
  have hpe : processEvent goos bs additional e =
      warnEffects goos ++ [Effect.sleep 100, Effect.restart] := by
    simp [processEvent, ht, hn]
  refine ⟨?_, ?_, ?_⟩
  · rw [hpe, List.count_append]
    have h0 : (warnEffects goos).count Effect.restart = 0 :=
      List.count_eq_zero.mpr (restart_not_mem_warn goos)
    rw [h0]
    rfl
  · exact ⟨warnEffects goos, [], by rw [hpe]; simp⟩
  · simp [Exec, hb]

/-- C1 witness: Scenario A at concrete values, on darwin with a create event for
the self binary. -/
theorem c1_witness :
    (processEvent "darwin" "/app/bin/server" [] ⟨"/app/bin/server", Create⟩).count Effect.restart = 1
  ∧ [Effect.sleep 100, Effect.restart] <:+:
      processEvent "darwin" "/app/bin/server" [] ⟨"/app/bin/server", Create⟩
  ∧ ExecStep.execAttempt "/app/bin/server" ("/app/bin/server" :: ["-p", "80"]) ["PATH=/bin"] ∈
      Exec "/app/bin/server" (Except.ok "/app/bin/server") true
        ["/app/bin/server", "-p", "80"] ["PATH=/bin"] none :=
  c1_self_event_restarts "darwin" "/app/bin/server" [] ⟨"/app/bin/server", Create⟩
    (Except.ok "/app/bin/server") ["/app/bin/server", "-p", "80"] ["PATH=/bin"]
    (by decide) rfl (by decide)

/-- C2 counterexample: when adding the first directory to the watcher fails, Do
does return the add error, but the event-loop goroutine was already started before
the registration loop ran, refuting the claim that no event loop is started. -/
theorem c2_counterexample :
    (Do fsC2 []).1 = DoResult.errored (DoErr.addErr "/app/bin" "permission denied")
  ∧ (Do fsC2 []).2.loopStarted = true :=
  ⟨by decide, by decide⟩

/-- If some directory in the list fails to be added, the registration loop returns
the add error and leaves the loop-started, watcher-closed and close-handle state
untouched. -/
theorem addDirsLoop_fails (fs : FS) (l : List String) :
    ∀ st : DoState, (∃ d ∈ l, ∃ m, fs.add d = Except.error m) →
      ∃ d m st2, addDirsLoop fs st l = (DoResult.errored (DoErr.addErr d m), st2)
        ∧ st2.loopStarted = st.loopStarted ∧ st2.watcherClosed = st.watcherClosed := by
  induction l with
  | nil =>
    intro st h
    obtain ⟨d, hd, _⟩ := h
    cases hd
  | cons d t ih =>
    intro st h
    cases hadd : fs.add d with
    | error m =>
      exact ⟨d, m, st, by simp [addDirsLoop, hadd], rfl, rfl⟩
    | ok u =>
      obtain ⟨d2, hd2, m2, hm2⟩ := h
      rcases List.mem_cons.mp hd2 with h1 | h1
      · subst h1
        rw [hadd] at hm2
        cases hm2
      · obtain ⟨d3, m3, st2, heq, h4, h5⟩ :=
          ih { st with watchedDirs := st.watchedDirs ++ [d] } ⟨d2, h1, m2, hm2⟩
        exact ⟨d3, m3, st2, by simp [addDirsLoop, hadd, heq], h4, h5⟩

/-- C2, amended: if adding any directory to the underlying watcher fails, Do
returns a watch-setup (add) error — but the event-loop goroutine has already been
started before the registration loop ran, and it is still running (and the watcher
is not closed) when Do returns that error. -/
theorem c2_amended_loop_already_started (fs : FS) (additional : List dir)
    (bin : String) (resolved : List dir)
    (h1 : fs.newWatcher = Except.ok ())
    (h2 : fs.selfRes = Except.ok bin)
    (h3 : validateAdditional fs additional = Except.ok resolved)
    (h4 : ∃ d ∈ filepathDir bin :: resolved.map (fun d => d.path),
            ∃ m, fs.add d = Except.error m) :
    ∃ d m st, Do fs additional = (DoResult.errored (DoErr.addErr d m), st)
      ∧ st.loopStarted = true ∧ st.watcherClosed = false := by
  obtain ⟨d, m, st2, heq, hl, hw⟩ :=
    addDirsLoop_fails fs (filepathDir bin :: resolved.map (fun d => d.path))
      { binSelf := bin, closeWatcherSet := true, loopStarted := true } h4
  refine ⟨d, m, st2, ?_, hl, hw⟩
  simp only [Do, h1, h2, h3]
  exact heq

/-- C2 witness: the amended statement at the concrete failing-add environment. -/
theorem c2_witness :
    ∃ d m st, Do fsC2 [] = (DoResult.errored (DoErr.addErr d m), st)
      ∧ st.loopStarted = true ∧ st.watcherClosed = false :=
  c2_amended_loop_already_started fsC2 [] "/app/bin/server" [] rfl rfl rfl
    ⟨"/app/bin", by decide, "permission denied", rfl⟩

/-- C3 counterexample: on a GOOS outside both families, a chmod event does not
trigger, yet processing it is not free of side effects — it logs the untested
warning — refuting that non-triggering events are ignored with no side effects. -/
theorem c3_counterexample :
    triggerOf "plan9" Chmod = false
  ∧ processEvent "plan9" "/app/bin/server" [] ⟨"/etc/motd", Chmod⟩ ≠ [] :=
  ⟨by decide, by decide⟩

/-- C3, amended: event classification is a function of (platform family, operation
kind): BSD-family platforms trigger iff the operation includes create, Linux iff it
includes write, every other platform iff it includes create; a non-triggering event
produces no restart, no callback and no grace-period sleep, and on BSD-family and
Linux platforms no effect at all — but on every other platform each processed
event, triggering or not, additionally logs the untested-platform warning. -/
theorem c3_classification (goos bs : String) (additional : List dir) (e : Event) :
    (bsdGOOS.contains goos = true → (triggerOf goos e.op = true ↔ e.op &&& Create = Create))
  ∧ (goos = "linux" → (triggerOf goos e.op = true ↔ e.op &&& Write = Write))
  ∧ (bsdGOOS.contains goos = false → goos ≠ "linux" →
      (triggerOf goos e.op = true ↔ e.op &&& Create = Create))
  ∧ (triggerOf goos e.op = false →
       Effect.restart ∉ processEvent goos bs additional e
     ∧ (∀ c, Effect.callback c ∉ processEvent goos bs additional e)
     ∧ (∀ n, Effect.sleep n ∉ processEvent goos bs additional e)
     ∧ ((bsdGOOS.contains goos = true ∨ goos = "linux") →
         processEvent goos bs additional e = [])) := by
  refine ⟨?_, ?_, ?_, ?_⟩
  · intro h
    have hm : goos ∈ bsdGOOS := by simpa using h
    simp [triggerOf, hm]
  · intro h
    subst h
    have hm : "linux" ∉ bsdGOOS := by decide
    simp [triggerOf, hm]
  · intro h1 h2
    have hm : goos ∉ bsdGOOS := by simpa using h1
    simp [triggerOf, hm, h2]
  · intro hf
    have hpe : processEvent goos bs additional e = warnEffects goos := by
      simp [processEvent, hf]
    refine ⟨?_, ?_, ?_, ?_⟩
    · rw [hpe]
      exact restart_not_mem_warn goos
    · intro c
      rw [hpe]
      exact callback_not_mem_warn goos c
    · intro n
      rw [hpe]
      exact sleep_not_mem_warn goos n
    · intro hk
      rw [hpe]
      rcases hk with hk | hk
      · have hm : goos ∈ bsdGOOS := by simpa using hk
        simp [warnEffects, hm]
      · simp [warnEffects, hk]

/-- C3 witness: the classification at concrete inputs — a create on darwin
triggers, and a chmod on linux produces no restart effect. -/
theorem c3_witness :
    (triggerOf "darwin" Create = true ↔ Create &&& Create = Create)
  ∧ Effect.restart ∉ processEvent "linux" "/app/bin/server" [] ⟨"/x", Chmod⟩ :=
  ⟨(c3_classification "darwin" "/app/bin/server" [] ⟨"/x", Create⟩).1 (by decide),
   ((c3_classification "linux" "/app/bin/server" [] ⟨"/x", Chmod⟩).2.2.2 (by decide)).1⟩

/-- C4 counterexample: on an untested GOOS, processing two events logs the warning
twice, refuting that it is logged at most once per process lifetime. -/
theorem c4_counterexample :
    1 < (processEvents "plan9" "/app/bin/server" [] [⟨"/x", Chmod⟩, ⟨"/y", Chmod⟩]).count
          (Effect.log (warnMsg "plan9")) := by
  decide

/-- C4, amended: on a platform outside the BSD and Linux families the untested
warning is logged once for every event the loop processes — not at most once per
process lifetime. -/
theorem c4_warn_logged_per_event (goos bs : String) (additional : List dir) (e : Event)
    (h1 : bsdGOOS.contains goos = false) (h2 : goos ≠ "linux") :
    (processEvent goos bs additional e).count (Effect.log (warnMsg goos)) = 1 := by
  have hm : goos ∉ bsdGOOS := by simpa using h1
  have hw : warnEffects goos = [Effect.log (warnMsg goos)] := by
    simp [warnEffects, hm, h2]
  by_cases ht : triggerOf goos e.op = true
  · by_cases hn : e.name = bs
    · have hpe : processEvent goos bs additional e =
          warnEffects goos ++ [Effect.sleep 100, Effect.restart] := by
        simp [processEvent, ht, hn]
      rw [hpe, List.count_append, hw]
      have h0 : ([Effect.sleep 100, Effect.restart]).count (Effect.log (warnMsg goos)) = 0 :=
        List.count_eq_zero.mpr (by simp)
      rw [h0]
      simp
    · have hpe : processEvent goos bs additional e =
          warnEffects goos ++
            (additional.filter (fun a => goHasPrefix e.name a.path)).flatMap
              (fun a => [Effect.sleep 100, Effect.callback a.cb]) := by
        simp [processEvent, ht, hn]
      rw [hpe, List.count_append, hw]
      have h0 : ((additional.filter (fun a => goHasPrefix e.name a.path)).flatMap
          (fun a => [Effect.sleep 100, Effect.callback a.cb])).count
            (Effect.log (warnMsg goos)) = 0 :=
        List.count_eq_zero.mpr (log_not_mem_cbs _ _)
      rw [h0]
      simp
  · have hpe : processEvent goos bs additional e = warnEffects goos := by
      simp [processEvent, ht]
    rw [hpe, hw]
    simp

/-- C4 witness: the amended statement on one concrete event on plan9. -/
theorem c4_witness :
    (processEvent "plan9" "/app/bin/server" [] ⟨"/x", Chmod⟩).count
      (Effect.log (warnMsg "plan9")) = 1 :=
  c4_warn_logged_per_event "plan9" "/app/bin/server" [] ⟨"/x", Chmod⟩ (by decide) (by decide)

/-- C5: a triggering event whose path equals the self-binary path invokes the
restart action and no additional-directory callback: RestartExec is initialised to
Exec, which never returns, so the callback dispatch loop is unreachable for that
event even when a registered directory's path is a prefix of the self path. -/
theorem c5_self_excludes_callbacks (goos bs : String) (additional : List dir) (e : Event)
    (ht : triggerOf goos e.op = true) (hn : e.name = bs) :
    Effect.restart ∈ processEvent goos bs additional e
  ∧ ∀ c, Effect.callback c ∉ processEvent goos bs additional e := by
  have hpe : processEvent goos bs additional e =
      warnEffects goos ++ [Effect.sleep 100, Effect.restart] := by
    simp [processEvent, ht, hn]
  constructor
  · rw [hpe]
    simp
  · intro c
    rw [hpe]
    intro hc
    rcases List.mem_append.mp hc with h | h
    · exact callback_not_mem_warn goos c h
    · simp at h

/-- C5 witness: the self path lies under a registered additional directory, and
still only the restart fires. -/
theorem c5_witness :
    Effect.restart ∈
      processEvent "darwin" "/app/bin/server" [⟨"/app", 0⟩] ⟨"/app/bin/server", Create⟩
  ∧ ∀ c, Effect.callback c ∉
      processEvent "darwin" "/app/bin/server" [⟨"/app", 0⟩] ⟨"/app/bin/server", Create⟩ :=
  c5_self_excludes_callbacks "darwin" "/app/bin/server" [⟨"/app", 0⟩]
    ⟨"/app/bin/server", Create⟩ (by decide) rfl

/-- C6 counterexample: a triggering event whose path has a registered directory's
path as a prefix but equals the self-binary path does NOT invoke that directory's
callback (the process is replaced instead), refuting the claim's unrestricted
quantification over events. -/
theorem c6_counterexample :
    goHasPrefix "/app/bin/server" "/app" = true
  ∧ triggerOf "darwin" Create = true
  ∧ Effect.callback 7 ∉
      processEvent "darwin" "/app/bin/server" [⟨"/app", 7⟩] ⟨"/app/bin/server", Create⟩ :=
  ⟨by decide, by decide, by decide⟩

/-- C6, amended: for every triggering change event whose path is not exactly the
self-binary path and has a registered additional directory's resolved path as a
prefix, that directory's callback is invoked immediately after a 100 ms
grace-period sleep; an event matching the prefixes of two registered directories
invokes both callbacks (each matched descriptor contributes its own sleep-callback
pair). -/
theorem c6_callbacks_after_delay (goos bs : String) (additional : List dir) (e : Event)
    (a : dir) (ht : triggerOf goos e.op = true) (hn : e.name ≠ bs)
    (ha : a ∈ additional) (hp : goHasPrefix e.name a.path = true) :
    [Effect.sleep 100, Effect.callback a.cb] <:+: processEvent goos bs additional e := by
  have hpe : processEvent goos bs additional e =
      warnEffects goos ++
        (additional.filter (fun a => goHasPrefix e.name a.path)).flatMap
          (fun a => [Effect.sleep 100, Effect.callback a.cb]) := by
    simp [processEvent, ht, hn]
  rw [hpe]
  exact infix_of_append (pair_infix_cbs _ a (List.mem_filter.mpr ⟨ha, hp⟩))

/-- C6 witness: Scenario B with two matching registered directories; the single
write event invokes both callbacks, each after its grace sleep. -/
theorem c6_witness :
    [Effect.sleep 100, Effect.callback 0] <:+:
      processEvent "linux" "/srv/bin/app" [⟨"/app/templates", 0⟩, ⟨"/app", 1⟩]
        ⟨"/app/templates/index.html", Write⟩
  ∧ [Effect.sleep 100, Effect.callback 1] <:+:
      processEvent "linux" "/srv/bin/app" [⟨"/app/templates", 0⟩, ⟨"/app", 1⟩]
        ⟨"/app/templates/index.html", Write⟩ :=
  ⟨c6_callbacks_after_delay "linux" "/srv/bin/app" [⟨"/app/templates", 0⟩, ⟨"/app", 1⟩]
      ⟨"/app/templates/index.html", Write⟩ ⟨"/app/templates", 0⟩
      (by decide) (by decide) (by decide) (by decide),
   c6_callbacks_after_delay "linux" "/srv/bin/app" [⟨"/app/templates", 0⟩, ⟨"/app", 1⟩]
      ⟨"/app/templates/index.html", Write⟩ ⟨"/app", 1⟩
      (by decide) (by decide) (by decide) (by decide)⟩

/-- If the paths of all descriptors resolve but at least one descriptor is invalid
(stat fails or not a directory), the validation loop returns a validation error. -/
theorem validateAdditional_fails (fs : FS) (l : List dir)
    (habs : ∀ d ∈ l, ∃ p, fs.abs d.path = Except.ok p)
    (hbad : ∃ d ∈ l, badDescriptor fs d) :
    ∃ e, validateAdditional fs l = Except.error e ∧ isValidationError e = true := by
  induction l with
  | nil =>
    obtain ⟨d, hd, _⟩ := hbad
    cases hd
  | cons d t ih =>
    obtain ⟨p, hp⟩ := habs d (List.mem_cons_self d t)
    cases hstat : fs.stat p with
    | error m =>
      exact ⟨DoErr.statErr m, by simp [validateAdditional, hp, hstat], rfl⟩
    | ok s =>
      by_cases hdir : s.isDir = false
      · exact ⟨DoErr.notDir d.path, by simp [validateAdditional, hp, hstat, hdir], rfl⟩
      · have hbad2 : ∃ d2 ∈ t, badDescriptor fs d2 := by
          obtain ⟨d2, hd2, hb⟩ := hbad
          rcases List.mem_cons.mp hd2 with h | h
          · exfalso
            subst h
            obtain ⟨p2, hp2, hcase⟩ := hb
            rw [hp] at hp2
            injection hp2 with hpp
            subst hpp
            rcases hcase with ⟨m, hm⟩ | ⟨s2, hs2, hd3⟩
            · rw [hstat] at hm
              cases hm
            · rw [hstat] at hs2
              injection hs2 with hss
              subst hss
              exact hdir hd3
          · exact ⟨d2, h, hb⟩
        obtain ⟨e, he, hv⟩ := ih (fun d2 hd2 => habs d2 (List.mem_cons_of_mem d hd2)) hbad2
        exact ⟨e, by simp [validateAdditional, hp, hstat, hdir, he], hv⟩

/-- C7: when every additional path resolves but at least one does not exist or is
not a directory, Do fails with a validation error before the event-loop goroutine
is started and before any directory — including ones listed earlier — is added to
the watcher. -/
theorem c7_validation_before_watch (fs : FS) (additional : List dir) (bin : String)
    (h1 : fs.newWatcher = Except.ok ())
    (h2 : fs.selfRes = Except.ok bin)
    (habs : ∀ d ∈ additional, ∃ p, fs.abs d.path = Except.ok p)
    (hbad : ∃ d ∈ additional, badDescriptor fs d) :
    ∃ e st, Do fs additional = (DoResult.errored e, st)
      ∧ isValidationError e = true
      ∧ st.watchedDirs = [] ∧ st.loopStarted = false ∧ st.watcherClosed = false := by
  obtain ⟨e, he, hv⟩ := validateAdditional_fails fs additional habs hbad
  refine ⟨e, { binSelf := bin, closeWatcherSet := true }, ?_, hv, rfl, rfl, rfl⟩
  simp only [Do, h1, h2, he]

/-- C7 witness: Scenario C — a descriptor pointing at the missing path
/app/missing makes Do fail with the stat error, with nothing armed. -/
theorem c7_witness :
    ∃ e st, Do fsC7 [⟨"/app/missing", 0⟩] = (DoResult.errored e, st)
      ∧ isValidationError e = true
      ∧ st.watchedDirs = [] ∧ st.loopStarted = false ∧ st.watcherClosed = false :=
  c7_validation_before_watch fsC7 [⟨"/app/missing", 0⟩] "/app/bin/server" rfl rfl
    (fun d _ => ⟨d.path, rfl⟩)
    ⟨⟨"/app/missing", 0⟩, by decide, "/app/missing", rfl,
      Or.inl ⟨"no such file or directory", rfl⟩⟩

/-- C8: Exec prefers the previously resolved self path and otherwise resolves one
fresh, terminating abnormally when that resolution fails; it closes the watcher's
notification handle, when one is set, before the exec attempt; a failed OS-level
replacement ends the trace with an abnormal termination; and no trace ever contains
more than one exec attempt (no retry). -/
theorem c8_exec_sequence (bs m : String) (sr : Except String String)
    (closeSet : Bool) (args env : List String) (execErr : Option String) :
    (bs = "" → sr = Except.error m →
      Exec bs sr closeSet args env execErr =
        [ExecStep.panicMsg ("cannot restart: cannot find self: " ++ m)])
  ∧ (bs = "" → sr = Except.ok m →
      ExecStep.execAttempt m (m :: args.tail) env ∈ Exec bs sr closeSet args env execErr)
  ∧ (bs ≠ "" → closeSet = true →
      ∃ rest, Exec bs sr closeSet args env execErr =
        ExecStep.close :: ExecStep.execAttempt bs (bs :: args.tail) env :: rest)
  ∧ (bs ≠ "" → execErr = some m →
      Exec bs sr closeSet args env execErr =
        (if closeSet then [ExecStep.close] else []) ++
          [ExecStep.execAttempt bs (bs :: args.tail) env,
           ExecStep.panicMsg ("cannot restart: " ++ m)])
  ∧ (Exec bs sr closeSet args env execErr).countP isExecAttempt ≤ 1 := by
  refine ⟨?_, ?_, ?_, ?_, ?_⟩
  · intro h1 h2
    simp [Exec, h1, h2]
  · intro h1 h2
    simp [Exec, h1, h2]
  · intro h1 h2
    subst h2
    cases execErr with
    | none => exact ⟨[], by simp [Exec, h1]⟩
    | some m2 => exact ⟨[ExecStep.panicMsg ("cannot restart: " ++ m2)], by simp [Exec, h1]⟩
  · intro h1 h2
    subst h2
    cases closeSet <;> simp [Exec, h1]
  · by_cases h : bs = ""
    · cases sr with
      | error m2 => simp [Exec, h, isExecAttempt]
      | ok nm =>
        cases execErr <;> cases closeSet <;>
          simp [Exec, h, isExecAttempt, List.countP_cons, List.countP_nil]
    · cases execErr <;> cases closeSet <;>
        simp [Exec, h, isExecAttempt, List.countP_cons, List.countP_nil]

/-- C8 witness: Scenario D — never-resolved self with failing resolution panics;
and a failing exec is preceded by the watcher close and the single exec attempt. -/
theorem c8_witness :
    Exec "" (Except.error "no procfs") true ["srv"] [] none =
      [ExecStep.panicMsg ("cannot restart: cannot find self: " ++ "no procfs")]
  ∧ ∃ rest, Exec "/app/bin/server" (Except.ok "/app/bin/server") true
        ["/app/bin/server", "-v"] ["A=1"] (some "permission denied") =
      ExecStep.close ::
        ExecStep.execAttempt "/app/bin/server"
          ("/app/bin/server" :: ["/app/bin/server", "-v"].tail) ["A=1"] :: rest :=
  ⟨(c8_exec_sequence "" "no procfs" (Except.error "no procfs") true ["srv"] [] none).1 rfl rfl,
   (c8_exec_sequence "/app/bin/server" "x" (Except.ok "/app/bin/server") true
      ["/app/bin/server", "-v"] ["A=1"] (some "permission denied")).2.2.1 (by decide) rfl⟩

/-- C9: callback matching is a raw string-prefix test with no path-separator
boundary check: any triggering non-self event whose path merely begins with the
characters of a registered directory's path invokes that directory's callback — in
particular, with /a/b and /a/bc both registered, a triggering event from /a/bc also
invokes the callback registered for /a/b. -/
theorem c9_raw_string_matching (goos bs : String) (additional : List dir) (e : Event)
    (a : dir) (ht : triggerOf goos e.op = true) (hn : e.name ≠ bs)
    (ha : a ∈ additional) (hp : goHasPrefix e.name a.path = true) :
    Effect.callback a.cb ∈ processEvent goos bs additional e
  ∧ Effect.callback 0 ∈
      processEvent "linux" "/srv/bin" [⟨"/a/b", 0⟩, ⟨"/a/bc", 1⟩] ⟨"/a/bc/data.txt", Write⟩ := by
  constructor
  · have hpe : processEvent goos bs additional e =
        warnEffects goos ++
          (additional.filter (fun a => goHasPrefix e.name a.path)).flatMap
            (fun a => [Effect.sleep 100, Effect.callback a.cb]) := by
      simp [processEvent, ht, hn]
    rw [hpe]
    refine List.mem_append.mpr (Or.inr ?_)
    exact List.mem_flatMap.mpr ⟨a, List.mem_filter.mpr ⟨ha, hp⟩, by simp⟩
  · decide

/-- C9 witness: the cross-match between /a/b and /a/bc at concrete values. -/
theorem c9_witness :
    Effect.callback (dir.mk "/a/b" 0).cb ∈
      processEvent "linux" "/srv/bin" [⟨"/a/b", 0⟩, ⟨"/a/bc", 1⟩] ⟨"/a/bc/data.txt", Write⟩
  ∧ Effect.callback 0 ∈
      processEvent "linux" "/srv/bin" [⟨"/a/b", 0⟩, ⟨"/a/bc", 1⟩] ⟨"/a/bc/data.txt", Write⟩ :=
  c9_raw_string_matching "linux" "/srv/bin" [⟨"/a/b", 0⟩, ⟨"/a/bc", 1⟩]
    ⟨"/a/bc/data.txt", Write⟩ ⟨"/a/b", 0⟩ (by decide) (by decide) (by decide) (by decide)

/-- The registration loop never changes the close-handle, watcher-closed or
loop-started components of the state. -/
theorem addDirsLoop_preserves (fs : FS) (l : List String) :
    ∀ st : DoState,
      (addDirsLoop fs st l).2.closeWatcherSet = st.closeWatcherSet
    ∧ (addDirsLoop fs st l).2.watcherClosed = st.watcherClosed
    ∧ (addDirsLoop fs st l).2.loopStarted = st.loopStarted := by
  induction l with
  | nil =>
    intro st
    exact ⟨rfl, rfl, rfl⟩
  | cons d t ih =>
    intro st
    cases h : fs.add d with
    | error m => simp [addDirsLoop, h]
    | ok u =>
      have hh := ih { st with watchedDirs := st.watchedDirs ++ [d] }
      simpa [addDirsLoop, h] using hh

/-- C10: on every error return of Do after the watcher was created, the
package-level closeWatcher is already assigned to the new watcher's close function
and Do has not closed the watcher: a failed initialisation is not atomic with
respect to package-level state and leaves the notification handle open. -/
theorem c10_error_leaves_watcher_open (fs : FS) (additional : List dir)
    (e : DoErr) (st : DoState)
    (h : Do fs additional = (DoResult.errored e, st))
    (hw : ∀ m, e ≠ DoErr.watcherSetup m) :
    st.closeWatcherSet = true ∧ st.watcherClosed = false := by
  unfold Do at h
  cases hnw : fs.newWatcher with
  | error m =>
    rw [hnw] at h
    injection h with h1 h2
    injection h1 with h3
    exact absurd h3.symm (hw m)
  | ok u =>
    rw [hnw] at h
    cases hsr : fs.selfRes with
    | error m =>
      rw [hsr] at h
      injection h with h1 h2
      subst h2
      exact ⟨rfl, rfl⟩
    | ok bin =>
      rw [hsr] at h
      cases hva : validateAdditional fs additional with
      | error e2 =>
        rw [hva] at h
        injection h with h1 h2
        subst h2
        exact ⟨rfl, rfl⟩
      | ok resolved =>
        rw [hva] at h
        have hst : (addDirsLoop fs
            { binSelf := bin, closeWatcherSet := true, loopStarted := true }
            (filepathDir bin :: resolved.map (fun d => d.path))).2 = st :=
          congrArg Prod.snd h
        obtain ⟨hc, hw2, _⟩ := addDirsLoop_preserves fs
          (filepathDir bin :: resolved.map (fun d => d.path))
          { binSelf := bin, closeWatcherSet := true, loopStarted := true }
        rw [hst] at hc hw2
        exact ⟨hc, hw2⟩

/-- C10 witness: the validation failure of Scenario C leaves the close handle
assigned and the watcher open. -/
theorem c10_witness :
    (Do fsC7 [⟨"/app/missing", 0⟩]).2.closeWatcherSet = true
  ∧ (Do fsC7 [⟨"/app/missing", 0⟩]).2.watcherClosed = false :=
  c10_error_leaves_watcher_open fsC7 [⟨"/app/missing", 0⟩]
    (DoErr.statErr "no such file or directory") (Do fsC7 [⟨"/app/missing", 0⟩]).2
    rfl (fun m hm => by cases hm)

end Reload
